import Mathlib

/-!
# Verification of the credit-metered OCR job pipeline

Shallow embedding of the core of the `ocr_public_version` repository:

* `app/services/credits.py` — organization credit ledger and balance engine
  (`debit_if_possible`, `refund`, `ensure_org_row`, `get_balance`);
* `app/services/ocr/pipeline.py` — the OCR job orchestrator
  (`process_ocr_job`, `_normalize_field_value` and its helpers);
* `app/services/ocr/template_job.py` — the template-generation job
  (`process_template_gen_job`);
* `app/services/rate_limit.py` — the `RateLimiter` gate, modelled as a
  labelled transition system.

Conventions used throughout:

* UUIDs are modelled as `Nat`.
* SQL sessions are modelled by explicit state passing.  Each service
  function runs inside one transaction: a path that ends in `commit`
  returns the updated state, a path that ends in `rollback` (or raises
  before touching the state) returns the original state unchanged.
* Python exceptions become explicit `Except`-style results carried next
  to the post-state.
* The wall clock is an abstract `Nat` supplied by the caller.
* Float confidence arithmetic is idealised over `ℚ` (the concrete
  constants 0.9, 0.6, 0.2 and their products are exact and far from the
  thresholds involved, so no float-rounding issue can change any of the
  comparisons proved below).
-/

/-! ## Credits ledger and balance engine (`app/services/credits.py`) -/

abbrev OrgId := Nat

/-- One row of the `credits_ledger` table (`app/domain/models/credit.py`).
`delta` is a signed integer: negative = debit, positive = credit/refund.
The pair `(org, key)` is unique whenever `key` is non-null
(`uq_credits_ledger_idempotency`). -/
structure LedgerEntry where
  org : OrgId
  delta : Int
  reason : String
  key : Option String
deriving DecidableEq, Repr

/-- Committed database state seen by the balance engine: the
`org_credits` table (association list `org ↦ balance`, `org_id` being the
primary key) and the append-only `credits_ledger` table. -/
structure CreditsDB where
  accounts : List (OrgId × Int)
  ledger : List LedgerEntry
deriving DecidableEq, Repr

/-- Errors raised by the balance engine: `ValueError` for a non-positive
amount, `InsufficientCreditsError` when the conditional update matches no
row. -/
inductive CreditsErr where
  | valueError
  | insufficientCredits
deriving DecidableEq, Repr

/-- Return value of `debit_if_possible` (`DebitResult` dataclass). -/
structure DebitResult where
  balance : Int
  already_processed : Bool
deriving DecidableEq, Repr

/-- Lookup of the (unique) `org_credits` row for `org`. -/
def lookupAcc : List (OrgId × Int) → OrgId → Option Int
  | [], _ => none
  | (o, b) :: rest, org => if o = org then some b else lookupAcc rest org

/-- `get_balance`: `SELECT balance FROM org_credits WHERE org_id = …`;
`0` if no row exists. -/
def get_balance (db : CreditsDB) (org : OrgId) : Int :=
  match lookupAcc db.accounts org with
  | some b => b
  | none => 0

/-- `ensure_org_row`: `INSERT … ON CONFLICT (org_id) DO NOTHING`; a fresh
row starts at balance `0`. -/
def ensureOrgRow (accounts : List (OrgId × Int)) (org : OrgId) :
    List (OrgId × Int) :=
  match lookupAcc accounts org with
  | some _ => accounts
  | none => accounts ++ [(org, 0)]

/-- The conditional debit update
`UPDATE org_credits SET balance = balance - amount
 WHERE org_id = org AND balance >= amount RETURNING balance`:
updates every matching row and returns the first returned balance
(`.first()`); `none` when no row matched. -/
def condDebitUpdate (accounts : List (OrgId × Int)) (org : OrgId)
    (amount : Int) : Option Int × List (OrgId × Int) :=
  match accounts with
  | [] => (none, [])
  | (o, b) :: rest =>
    if o = org ∧ amount ≤ b then
      (some (b - amount), (o, b - amount) :: rest)
    else
      let r := condDebitUpdate rest org amount
      (r.1, (o, b) :: r.2)

/-- The unconditional refund update
`UPDATE org_credits SET balance = balance + amount
 WHERE org_id = org RETURNING balance`. -/
def refundUpdate (accounts : List (OrgId × Int)) (org : OrgId)
    (amount : Int) : Option Int × List (OrgId × Int) :=
  match accounts with
  | [] => (none, [])
  | (o, b) :: rest =>
    if o = org then
      (some (b + amount), (o, b + amount) :: rest)
    else
      let r := refundUpdate rest org amount
      (r.1, (o, b) :: r.2)

/-- Whether the ledger already holds an entry with this `(org, key)` pair
(the unique constraint that makes the keyed insert raise
`IntegrityError`). -/
def hasKey (ledger : List LedgerEntry) (org : OrgId) (k : String) : Bool :=
  ledger.any (fun e => e.org = org ∧ e.key = some k)

/-- `debit_if_possible(db, org_id, amount, reason=…, idempotency_key=…)`.

The pair returned is `(python result, committed post-state)`:
* `amount <= 0` raises `ValueError` before any statement runs;
* with a key, the ledger row is flushed first; a unique-key conflict
  rolls back and reports `already_processed=True` at the committed
  balance; otherwise the conditional update must match or everything
  (including the `ensure_org_row` insert) is rolled back and
  `InsufficientCreditsError` is raised;
* without a key, the conditional update runs first and the ledger row is
  written only on success. -/
def debit_if_possible (db : CreditsDB) (org : OrgId) (amount : Int)
    (reason : String) (idempotency_key : Option String) :
    Except CreditsErr DebitResult × CreditsDB :=
  if amount ≤ 0 then (.error .valueError, db)
  else
    let accs := ensureOrgRow db.accounts org
    match idempotency_key with
    | some k =>
      if hasKey db.ledger org k then
        -- IntegrityError on flush: rollback, report already processed
        (.ok ⟨get_balance db org, true⟩, db)
      else
        match condDebitUpdate accs org amount with
        | (some newBal, accs') =>
          (.ok ⟨newBal, false⟩,
           ⟨accs', db.ledger ++ [⟨org, -amount, reason, some k⟩]⟩)
        | (none, _) =>
          -- rollback the ledger insert (and the ensure), raise
          (.error .insufficientCredits, db)
    | none =>
      match condDebitUpdate accs org amount with
      | (some newBal, accs') =>
        (.ok ⟨newBal, false⟩,
         ⟨accs', db.ledger ++ [⟨org, -amount, reason, none⟩]⟩)
      | (none, _) =>
        (.error .insufficientCredits, db)

/-- `refund(db, org_id, amount, reason=…, idempotency_key=…)`: the mirror
credit operation.  The update has no balance guard; a duplicate key rolls
back and returns the committed balance. -/
def refund (db : CreditsDB) (org : OrgId) (amount : Int)
    (reason : String) (idempotency_key : Option String) :
    Except CreditsErr Int × CreditsDB :=
  if amount ≤ 0 then (.error .valueError, db)
  else
    let accs := ensureOrgRow db.accounts org
    match idempotency_key with
    | some k =>
      if hasKey db.ledger org k then
        (.ok (get_balance db org), db)
      else
        let r := refundUpdate accs org amount
        let db' : CreditsDB :=
          ⟨r.2, db.ledger ++ [⟨org, amount, reason, some k⟩]⟩
        (.ok (match r.1 with | some b => b | none => get_balance db' org), db')
    | none =>
      let r := refundUpdate accs org amount
      let db' : CreditsDB :=
        ⟨r.2, db.ledger ++ [⟨org, amount, reason, none⟩]⟩
      (.ok (match r.1 with | some b => b | none => get_balance db' org), db')

example :
    debit_if_possible ⟨[(1, 5)], []⟩ 1 10 "r" none
      = (.error .insufficientCredits, ⟨[(1, 5)], []⟩) := rfl

example :
    (debit_if_possible ⟨[(1, 10)], []⟩ 1 3 "r" (some "A")).1
      = .ok ⟨7, false⟩ := rfl

/-! ### Lemmas about the account table -/

/-- `org_id` is the primary key of `org_credits`: well-formed states have
no duplicate keys. -/
abbrev accsOk (accounts : List (OrgId × Int)) : Prop :=
  (accounts.map Prod.fst).Nodup

theorem get_balance_eq (db : CreditsDB) (org : OrgId) :
    get_balance db org = (lookupAcc db.accounts org).getD 0 := by
  unfold get_balance
  cases lookupAcc db.accounts org <;> rfl

theorem lookupAcc_eq_none_of_not_mem {accs : List (OrgId × Int)}
    {org : OrgId} (h : org ∉ accs.map Prod.fst) :
    lookupAcc accs org = none := by
  induction accs with
  | nil => rfl
  | cons p rest ih =>
    obtain ⟨o, b⟩ := p
    simp only [List.map_cons, List.mem_cons] at h
    push_neg at h
    have ho : ¬ o = org := fun he => h.1 he.symm
    simp only [lookupAcc, if_neg ho]
    exact ih h.2

theorem not_mem_of_lookupAcc_eq_none {accs : List (OrgId × Int)}
    {org : OrgId} (h : lookupAcc accs org = none) :
    org ∉ accs.map Prod.fst := by
  induction accs with
  | nil => simp
  | cons p rest ih =>
    obtain ⟨o, b⟩ := p
    by_cases ho : o = org
    · simp [lookupAcc, ho] at h
    · simp only [lookupAcc, if_neg ho] at h
      simp only [List.map_cons, List.mem_cons]
      push_neg
      exact ⟨fun he => ho he.symm, ih h⟩

theorem lookupAcc_append (l₁ l₂ : List (OrgId × Int)) (org : OrgId) :
    lookupAcc (l₁ ++ l₂) org =
      ((lookupAcc l₁ org).rec (lookupAcc l₂ org) (fun b => some b)) := by
  induction l₁ with
  | nil => rfl
  | cons p rest ih =>
    obtain ⟨o, b⟩ := p
    by_cases ho : o = org
    · simp [lookupAcc, ho]
    · simp [lookupAcc, ho, ih]

theorem lookupAcc_ensureOrgRow (accs : List (OrgId × Int)) (org : OrgId) :
    lookupAcc (ensureOrgRow accs org) org
      = some ((lookupAcc accs org).getD 0) := by
  unfold ensureOrgRow
  cases h : lookupAcc accs org with
  | some b => simp [h]
  | none => simp [lookupAcc_append, h, lookupAcc]

theorem accsOk_ensureOrgRow {accs : List (OrgId × Int)} (org : OrgId)
    (h : accsOk accs) : accsOk (ensureOrgRow accs org) := by
  unfold ensureOrgRow
  cases hl : lookupAcc accs org with
  | some b => exact h
  | none =>
    have hnm := not_mem_of_lookupAcc_eq_none hl
    unfold accsOk at h ⊢
    rw [List.map_append, List.nodup_append]
    refine ⟨h, List.nodup_singleton org, ?_⟩
    intro a ha hb
    simp only [List.map_cons, List.map_nil, List.mem_singleton] at hb
    exact hnm (hb ▸ ha)

/-! ### Lemmas about the conditional debit update -/

theorem condDebitUpdate_not_found {accs : List (OrgId × Int)}
    {org : OrgId} (amount : Int) (h : lookupAcc accs org = none) :
    condDebitUpdate accs org amount = (none, accs) := by
  induction accs with
  | nil => rfl
  | cons p rest ih =>
    obtain ⟨o, b⟩ := p
    by_cases ho : o = org
    · simp [lookupAcc, ho] at h
    · simp only [lookupAcc, if_neg ho] at h
      simp only [condDebitUpdate, ih h]
      rw [if_neg]
      rintro ⟨he, -⟩
      exact ho he

theorem condDebitUpdate_found_ge {accs : List (OrgId × Int)}
    {org : OrgId} {b amount : Int}
    (h : lookupAcc accs org = some b) (hge : amount ≤ b) :
    (condDebitUpdate accs org amount).1 = some (b - amount) ∧
    lookupAcc (condDebitUpdate accs org amount).2 org = some (b - amount) := by
  induction accs with
  | nil => simp [lookupAcc] at h
  | cons p rest ih =>
    obtain ⟨o, b'⟩ := p
    by_cases ho : o = org
    · have hb : b' = b := by simpa [lookupAcc, ho] using h
      subst hb
      simp [condDebitUpdate, ho, hge, lookupAcc]
    · simp only [lookupAcc, if_neg ho] at h
      have := ih h
      simp only [condDebitUpdate]
      rw [if_neg (by rintro ⟨he, -⟩; exact ho he)]
      simpa [lookupAcc, ho] using this

theorem condDebitUpdate_found_lt {accs : List (OrgId × Int)}
    {org : OrgId} {b amount : Int} (hok : accsOk accs)
    (h : lookupAcc accs org = some b) (hlt : b < amount) :
    condDebitUpdate accs org amount = (none, accs) := by
  induction accs with
  | nil => simp [lookupAcc] at h
  | cons p rest ih =>
    obtain ⟨o, b'⟩ := p
    unfold accsOk at hok
    simp only [List.map_cons, List.nodup_cons] at hok
    by_cases ho : o = org
    · have hb : b' = b := by simpa [lookupAcc, ho] using h
      subst hb
      have hrest : lookupAcc rest org = none :=
        lookupAcc_eq_none_of_not_mem (ho ▸ hok.1)
      simp only [condDebitUpdate, condDebitUpdate_not_found amount hrest]
      rw [if_neg (by rintro ⟨-, hge⟩; exact absurd hlt (not_lt.mpr hge))]
    · simp only [lookupAcc, if_neg ho] at h
      have := ih hok.2 h
      simp only [condDebitUpdate, this]
      rw [if_neg (by rintro ⟨he, -⟩; exact ho he)]

/-! ### Lemmas about the refund update -/

theorem refundUpdate_found {accs : List (OrgId × Int)}
    {org : OrgId} {b : Int} (amount : Int)
    (h : lookupAcc accs org = some b) :
    (refundUpdate accs org amount).1 = some (b + amount) ∧
    lookupAcc (refundUpdate accs org amount).2 org = some (b + amount) := by
  induction accs with
  | nil => simp [lookupAcc] at h
  | cons p rest ih =>
    obtain ⟨o, b'⟩ := p
    by_cases ho : o = org
    · have hb : b' = b := by simpa [lookupAcc, ho] using h
      subst hb
      simp [refundUpdate, ho, lookupAcc]
    · simp only [lookupAcc, if_neg ho] at h
      have := ih h
      simp only [refundUpdate, if_neg ho]
      simpa [lookupAcc, ho] using this

theorem hasKey_append (L : List LedgerEntry) (e : LedgerEntry)
    (org : OrgId) (k : String) :
    hasKey (L ++ [e]) org k
      = (hasKey L org k || decide (e.org = org ∧ e.key = some k)) := by
  simp [hasKey, List.any_append]

/-! ### Characterization of the debit / refund paths -/

theorem lookupAcc_ensure_balance (db : CreditsDB) (org : OrgId) :
    lookupAcc (ensureOrgRow db.accounts org) org
      = some (get_balance db org) := by
  rw [lookupAcc_ensureOrgRow, ← get_balance_eq]

/-- A keyed debit with a fresh key and a sufficient balance commits:
it returns the decremented balance, appends exactly one ledger entry,
and the new committed balance is `pre - amount`. -/
theorem debit_fresh_ge (db : CreditsDB) (org : OrgId) (amount : Int)
    (reason k : String) (hpos : 0 < amount)
    (hge : amount ≤ get_balance db org)
    (hfresh : hasKey db.ledger org k = false) :
    debit_if_possible db org amount reason (some k)
      = (.ok ⟨get_balance db org - amount, false⟩,
         ⟨(condDebitUpdate (ensureOrgRow db.accounts org) org amount).2,
          db.ledger ++ [⟨org, -amount, reason, some k⟩]⟩) ∧
    get_balance (debit_if_possible db org amount reason (some k)).2 org
      = get_balance db org - amount := by
  have hfound := condDebitUpdate_found_ge (lookupAcc_ensure_balance db org) hge
  obtain ⟨rest, hrest⟩ :
      ∃ x, condDebitUpdate (ensureOrgRow db.accounts org) org amount
        = (some (get_balance db org - amount), x) :=
    ⟨_, by rw [← hfound.1]⟩
  have hmain : debit_if_possible db org amount reason (some k)
      = (.ok ⟨get_balance db org - amount, false⟩,
         ⟨(condDebitUpdate (ensureOrgRow db.accounts org) org amount).2,
          db.ledger ++ [⟨org, -amount, reason, some k⟩]⟩) := by
    unfold debit_if_possible
    rw [if_neg (not_le.mpr hpos)]
    simp [hfresh, hrest]
  refine ⟨hmain, ?_⟩
  rw [hmain, get_balance_eq]
  simp [hfound.2]

/-- A keyed debit whose key already appears in the ledger is a no-op
reporting `already_processed = true` at the committed balance. -/
theorem debit_replay (db : CreditsDB) (org : OrgId) (amount : Int)
    (reason k : String) (hpos : 0 < amount)
    (hk : hasKey db.ledger org k = true) :
    debit_if_possible db org amount reason (some k)
      = (.ok ⟨get_balance db org, true⟩, db) := by
  unfold debit_if_possible
  rw [if_neg (not_le.mpr hpos)]
  simp [hk]

/-- A keyed refund with a fresh key commits: it returns the incremented
balance and appends exactly one positive ledger entry. -/
theorem refund_fresh (db : CreditsDB) (org : OrgId) (amount : Int)
    (reason k : String) (hpos : 0 < amount)
    (hfresh : hasKey db.ledger org k = false) :
    refund db org amount reason (some k)
      = (.ok (get_balance db org + amount),
         ⟨(refundUpdate (ensureOrgRow db.accounts org) org amount).2,
          db.ledger ++ [⟨org, amount, reason, some k⟩]⟩) ∧
    get_balance (refund db org amount reason (some k)).2 org
      = get_balance db org + amount := by
  have hfound := refundUpdate_found amount (lookupAcc_ensure_balance db org)
  obtain ⟨rest, hrest⟩ :
      ∃ x, refundUpdate (ensureOrgRow db.accounts org) org amount
        = (some (get_balance db org + amount), x) :=
    ⟨_, by rw [← hfound.1]⟩
  have hmain : refund db org amount reason (some k)
      = (.ok (get_balance db org + amount),
         ⟨(refundUpdate (ensureOrgRow db.accounts org) org amount).2,
          db.ledger ++ [⟨org, amount, reason, some k⟩]⟩) := by
    unfold refund
    rw [if_neg (not_le.mpr hpos)]
    simp [hfresh, hrest]
  refine ⟨hmain, ?_⟩
  rw [hmain, get_balance_eq]
  simp [hfound.2]

/-- An unkeyed refund commits and increments the balance. -/
theorem refund_nokey (db : CreditsDB) (org : OrgId) (amount : Int)
    (reason : String) (hpos : 0 < amount) :
    refund db org amount reason none
      = (.ok (get_balance db org + amount),
         ⟨(refundUpdate (ensureOrgRow db.accounts org) org amount).2,
          db.ledger ++ [⟨org, amount, reason, none⟩]⟩) := by
  have hfound := refundUpdate_found amount (lookupAcc_ensure_balance db org)
  obtain ⟨rest, hrest⟩ :
      ∃ x, refundUpdate (ensureOrgRow db.accounts org) org amount
        = (some (get_balance db org + amount), x) :=
    ⟨_, by rw [← hfound.1]⟩
  unfold refund
  rw [if_neg (not_le.mpr hpos)]
  simp [hrest]

/-- A keyed refund whose key already appears in the ledger is a no-op
returning the committed balance. -/
theorem refund_replay (db : CreditsDB) (org : OrgId) (amount : Int)
    (reason k : String) (hpos : 0 < amount)
    (hk : hasKey db.ledger org k = true) :
    refund db org amount reason (some k) = (.ok (get_balance db org), db) := by
  unfold refund
  rw [if_neg (not_le.mpr hpos)]
  simp [hk]

/-- A debit of more than the balance with a fresh key (or none) rolls
back everything and raises `InsufficientCreditsError`. -/
theorem debit_insufficient (db : CreditsDB) (org : OrgId) (amount : Int)
    (reason : String) (key : Option String)
    (hok : accsOk db.accounts) (hpos : 0 < amount)
    (hlt : get_balance db org < amount)
    (hfresh : ∀ k, key = some k → hasKey db.ledger org k = false) :
    debit_if_possible db org amount reason key
      = (.error .insufficientCredits, db) := by
  have hnone := condDebitUpdate_found_lt (accsOk_ensureOrgRow org hok)
    (lookupAcc_ensure_balance db org) hlt
  unfold debit_if_possible
  rw [if_neg (not_le.mpr hpos)]
  cases key with
  | none => simp [hnone]
  | some k => simp [hnone, hfresh k rfl]

/-- Any debit that returns `already_processed = false` had a positive
amount, a sufficient pre-balance, and commits balance `pre - amount`. -/
theorem debit_success_char {db : CreditsDB} {org : OrgId} {amount : Int}
    {reason : String} {key : Option String} {r : DebitResult}
    {db' : CreditsDB} (hok : accsOk db.accounts)
    (heq : debit_if_possible db org amount reason key = (.ok r, db'))
    (hproc : r.already_processed = false) :
    0 < amount ∧ amount ≤ get_balance db org ∧
    get_balance db' org = get_balance db org - amount := by
  by_cases hle : amount ≤ 0
  · unfold debit_if_possible at heq
    rw [if_pos hle] at heq
    simp at heq
  push_neg at hle
  by_cases hlt : get_balance db org < amount
  · exfalso
    have hnone := condDebitUpdate_found_lt (accsOk_ensureOrgRow org hok)
      (lookupAcc_ensure_balance db org) hlt
    cases key with
    | none =>
      unfold debit_if_possible at heq
      rw [if_neg (not_le.mpr hle)] at heq
      simp [hnone] at heq
    | some k =>
      by_cases hk : hasKey db.ledger org k
      · rw [debit_replay db org amount reason k hle hk] at heq
        simp only [Prod.mk.injEq, Except.ok.injEq] at heq
        rw [← heq.1] at hproc
        simp at hproc
      · have hk' : hasKey db.ledger org k = false := by simpa using hk
        unfold debit_if_possible at heq
        rw [if_neg (not_le.mpr hle)] at heq
        simp [hnone, hk'] at heq
  push_neg at hlt
  refine ⟨hle, hlt, ?_⟩
  cases key with
  | none =>
    have hfound := condDebitUpdate_found_ge (lookupAcc_ensure_balance db org) hlt
    obtain ⟨rest, hrest⟩ :
        ∃ x, condDebitUpdate (ensureOrgRow db.accounts org) org amount
          = (some (get_balance db org - amount), x) :=
      ⟨_, by rw [← hfound.1]⟩
    unfold debit_if_possible at heq
    rw [if_neg (not_le.mpr hle)] at heq
    simp only [hrest] at heq
    simp only [Prod.mk.injEq, Except.ok.injEq] at heq
    rw [← heq.2, get_balance_eq]
    have : lookupAcc rest org = some (get_balance db org - amount) := by
      rw [← hfound.2, hrest]
    simp [this]
  | some k =>
    by_cases hk : hasKey db.ledger org k
    · rw [debit_replay db org amount reason k hle hk] at heq
      simp only [Prod.mk.injEq, Except.ok.injEq] at heq
      rw [← heq.1] at hproc
      simp at hproc
    · have hk' : hasKey db.ledger org k = false := by simpa using hk
      have hfr := debit_fresh_ge db org amount reason k hle hlt hk'
      have hbal := hfr.2
      rw [hfr.1] at heq
      simp only [Prod.mk.injEq, Except.ok.injEq] at heq
      rw [hfr.1] at hbal
      rw [← heq.2]
      exact hbal

/-- C1: a debit of more than the balance (fresh idempotency key or none)
raises `InsufficientCredits` and commits nothing — the balance keeps its
pre-call value and no ledger row is written; and every debit that
actually charges (`already_processed = false`) had `pre-balance ≥ amount`
so the committed balance `pre - amount` never goes below zero. -/
theorem spec_C1_debit_insufficient_atomic
    (db : CreditsDB) (org : OrgId) (amount : Int) (reason : String)
    (key : Option String) (hok : accsOk db.accounts)
    (hfresh : ∀ k, key = some k → hasKey db.ledger org k = false) :
    (0 < amount → get_balance db org < amount →
        debit_if_possible db org amount reason key
          = (.error .insufficientCredits, db)) ∧
    (∀ r db', debit_if_possible db org amount reason key = (.ok r, db') →
        r.already_processed = false →
        amount ≤ get_balance db org ∧
        get_balance db' org = get_balance db org - amount ∧
        0 ≤ get_balance db' org) := by
  constructor
  · intro hpos hlt
    exact debit_insufficient db org amount reason key hok hpos hlt hfresh
  · intro r db' heq hproc
    obtain ⟨hpos, hge, hbal⟩ := debit_success_char hok heq hproc
    refine ⟨hge, hbal, ?_⟩
    rw [hbal]
    omega

/-- C1 witness: with balance 5, `debit(org, 10)` raises
`InsufficientCredits` and the state is unchanged. -/
theorem spec_C1_debit_insufficient_atomic_witness :
    debit_if_possible ⟨[(1, 5)], []⟩ 1 10 "r" none
      = (.error .insufficientCredits, ⟨[(1, 5)], []⟩) :=
  (spec_C1_debit_insufficient_atomic ⟨[(1, 5)], []⟩ 1 10 "r" none
    (by decide) (fun _ hk => nomatch hk)).1 (by decide) (by decide)

/-- C2: with balance 10 and a fresh key `"A"`, `debit(org, 3, key="A")`
returns `(7, false)`; calling it again with the same key returns
`(7, true)` and leaves the state untouched, so the total balance change
across both calls is exactly −3. -/
theorem spec_C2_idempotent_debit
    (db : CreditsDB) (org : OrgId) (reason₁ reason₂ : String)
    (hbal : get_balance db org = 10)
    (hfresh : hasKey db.ledger org "A" = false) :
    (debit_if_possible db org 3 reason₁ (some "A")).1 = .ok ⟨7, false⟩ ∧
    get_balance (debit_if_possible db org 3 reason₁ (some "A")).2 org = 7 ∧
    debit_if_possible (debit_if_possible db org 3 reason₁ (some "A")).2 org 3
        reason₂ (some "A")
      = (.ok ⟨7, true⟩, (debit_if_possible db org 3 reason₁ (some "A")).2) ∧
    get_balance (debit_if_possible db org 3 reason₁ (some "A")).2 org
      = get_balance db org - 3 := by
  have h1 := debit_fresh_ge db org 3 reason₁ "A" (by norm_num)
    (by rw [hbal]; norm_num) hfresh
  have hb7 : get_balance db org - 3 = 7 := by rw [hbal]; norm_num
  have hk2 : hasKey (debit_if_possible db org 3 reason₁ (some "A")).2.ledger
      org "A" = true := by
    rw [h1.1]
    simp [hasKey_append]
  have h3 := debit_replay (debit_if_possible db org 3 reason₁ (some "A")).2
    org 3 reason₂ "A" (by norm_num) hk2
  refine ⟨?_, ?_, ?_, ?_⟩
  · rw [h1.1]
    simp [hb7]
  · rw [h1.2, hb7]
  · rw [h3, h1.2, hb7]
  · exact h1.2

/-- C2 witness: the concrete scenario at balance 10 on a fresh state. -/
theorem spec_C2_idempotent_debit_witness :
    (debit_if_possible ⟨[(1, 10)], []⟩ 1 3 "a" (some "A")).1
      = .ok ⟨7, false⟩ :=
  (spec_C2_idempotent_debit ⟨[(1, 10)], []⟩ 1 "a" "b"
    (by decide) (by decide)).1

/-- C7: `debit(org, n, key=K1)` followed by `refund(org, n, key=K2)` with
`K1 ≠ K2` (fresh keys) restores the balance to its pre-debit value; and
`refund` never fails due to balance bounds — it only ever increases the
balance. -/
theorem spec_C7_debit_refund_roundtrip
    (db : CreditsDB) (org : OrgId) (n : Int) (r₁ r₂ K1 K2 : String)
    (hpos : 0 < n)
    (hge : n ≤ get_balance db org) (hKK : K1 ≠ K2)
    (h1 : hasKey db.ledger org K1 = false)
    (h2 : hasKey db.ledger org K2 = false) :
    get_balance (refund (debit_if_possible db org n r₁ (some K1)).2 org n r₂
        (some K2)).2 org = get_balance db org ∧
    (refund (debit_if_possible db org n r₁ (some K1)).2 org n r₂
        (some K2)).1 = .ok (get_balance db org) ∧
    (∀ (db' : CreditsDB) (org' : OrgId) (m : Int) (re : String)
        (k : Option String), 0 < m →
      (refund db' org' m re k).1 ≠ .error .insufficientCredits ∧
      get_balance db' org' ≤ get_balance (refund db' org' m re k).2 org') := by
  have hd := debit_fresh_ge db org n r₁ K1 hpos hge h1
  have hkfresh : hasKey (debit_if_possible db org n r₁ (some K1)).2.ledger
      org K2 = false := by
    rw [hd.1]
    simp [hasKey_append, h2, hKK]
  have hr := refund_fresh (debit_if_possible db org n r₁ (some K1)).2
    org n r₂ K2 hpos hkfresh
  refine ⟨?_, ?_, ?_⟩
  · rw [hr.2, hd.2]
    omega
  · rw [hr.1, hd.2]
    show Except.ok (get_balance db org - n + n) = Except.ok (get_balance db org)
    congr 1
    omega
  · intro db' org' m re k hm
    cases k with
    | none =>
      have hf := refundUpdate_found m (lookupAcc_ensure_balance db' org')
      have hnk := refund_nokey db' org' m re hm
      constructor
      · rw [hnk]
        simp
      · rw [hnk]
        simp only [get_balance_eq, hf.2, Option.getD_some]
        omega
    | some kk =>
      by_cases hk : hasKey db'.ledger org' kk
      · rw [refund_replay db' org' m re kk hm hk]
        exact ⟨by simp, le_refl _⟩
      · have hk' : hasKey db'.ledger org' kk = false := by simpa using hk
        have hfr := refund_fresh db' org' m re kk hm hk'
        constructor
        · rw [hfr.1]
          simp
        · rw [hfr.2]
          omega

/-- C7 witness: balance 10, debit 4 with key `"K1"` then refund 4 with
key `"K2"` restores the balance to 10. -/
theorem spec_C7_debit_refund_roundtrip_witness :
    get_balance (refund (debit_if_possible ⟨[(1, 10)], []⟩ 1 4 "d" (some "K1")).2
        1 4 "r" (some "K2")).2 1 = get_balance ⟨[(1, 10)], []⟩ 1 :=
  (spec_C7_debit_refund_roundtrip ⟨[(1, 10)], []⟩ 1 4 "d" "r" "K1" "K2"
    (by decide) (by decide) (by decide) (by decide) (by decide)).1

/-- C10: a non-positive amount makes both `debit_if_possible` and
`refund` raise `ValueError` before any statement runs: no account row is
created, no ledger entry is inserted, the state is unchanged. -/
theorem spec_C10_nonpositive_amount_value_error
    (db : CreditsDB) (org : OrgId) (amount : Int) (reason : String)
    (key : Option String) (h : amount ≤ 0) :
    debit_if_possible db org amount reason key = (.error .valueError, db) ∧
    refund db org amount reason key = (.error .valueError, db) := by
  unfold debit_if_possible refund
  rw [if_pos h, if_pos h]
  exact ⟨rfl, rfl⟩

/-- C10 witness: `debit(org, 0)` and `refund(org, 0)` both raise
`ValueError` and leave the state unchanged. -/
theorem spec_C10_nonpositive_amount_value_error_witness :
    debit_if_possible ⟨[(1, 5)], []⟩ 1 0 "r" none
        = (.error .valueError, ⟨[(1, 5)], []⟩) ∧
    refund ⟨[(1, 5)], []⟩ 1 0 "r" none
        = (.error .valueError, ⟨[(1, 5)], []⟩) :=
  spec_C10_nonpositive_amount_value_error ⟨[(1, 5)], []⟩ 1 0 "r" none
    (by decide)

/-! ## Field normalization (`app/services/ocr/pipeline.py`)

The Unicode-script predicates model Python's `unicodedata.name` lookups
by code-point block, restricted to the three scripts the source actually
distinguishes (Latin, Greek, Cyrillic); letters of any other script make
the source's condition false exactly as a non-letter does, so they are
treated uniformly.  `str.lower` is modelled on ASCII (all the categorical
values the source compares against are ASCII except `"féminin"`, whose
`é` is already lowercase). -/

/-- Code points whose Unicode name contains `LATIN`:
basic Latin letters, Latin-1 letters and Latin Extended-A/B. -/
def nameHasLatin (c : Char) : Bool :=
  (0x41 ≤ c.toNat ∧ c.toNat ≤ 0x5A) ∨ (0x61 ≤ c.toNat ∧ c.toNat ≤ 0x7A) ∨
  (0xC0 ≤ c.toNat ∧ c.toNat ≤ 0x24F ∧ c.toNat ≠ 0xD7 ∧ c.toNat ≠ 0xF7)

/-- Code points whose Unicode name contains `GREEK` (Greek block). -/
def nameHasGreek (c : Char) : Bool :=
  0x370 ≤ c.toNat ∧ c.toNat ≤ 0x3FF

/-- Code points whose Unicode name contains `CYRILLIC`
(Cyrillic and Cyrillic Supplement blocks). -/
def nameHasCyrillic (c : Char) : Bool :=
  0x400 ≤ c.toNat ∧ c.toNat ≤ 0x52F

/-- `str.isalpha` on the scripts modelled here. -/
def pyIsAlpha (c : Char) : Bool :=
  nameHasLatin c || nameHasGreek c || nameHasCyrillic c

/-- The `_CYR_TO_LAT` look-alike table: Cyrillic letters that resemble a
Latin letter are replaced by that Latin letter; anything else is kept. -/
def cyrToLat (c : Char) : Char :=
  match c with
  | 'А' => 'A' | 'В' => 'B' | 'С' => 'C' | 'Е' => 'E' | 'К' => 'K'
  | 'М' => 'M' | 'Н' => 'H' | 'О' => 'O' | 'Р' => 'P' | 'Т' => 'T'
  | 'У' => 'Y' | 'Х' => 'X'
  | 'а' => 'a' | 'с' => 'c' | 'е' => 'e' | 'к' => 'k' | 'м' => 'm'
  | 'н' => 'h' | 'о' => 'o' | 'р' => 'p' | 'т' => 't' | 'у' => 'y'
  | 'х' => 'x'
  | 'І' => 'I' | 'і' => 'i' | 'Ј' => 'J' | 'ј' => 'j' | 'П' => 'P'
  | _ => c

/-- `_to_latin_lookalike`: apply the look-alike table character-wise. -/
def _to_latin_lookalike (s : String) : String :=
  ⟨s.data.map cyrToLat⟩

/-- `_contains_non_latin_alpha`: the source condition
`ch.isalpha() and "LATIN" not in name and not ("GREEK" not in name and
"CYRILLIC" not in name)` for some character of `s`. -/
def _contains_non_latin_alpha (s : String) : Bool :=
  s.data.any (fun c =>
    pyIsAlpha c && !nameHasLatin c && (nameHasGreek c || nameHasCyrillic c))

/-- The words of a character list: maximal whitespace-free runs
(Python `s.split()` with no separator). -/
def wordsAux : List Char → List Char → List (List Char)
  | [], acc => if acc.isEmpty then [] else [acc.reverse]
  | c :: rest, acc =>
    if c.isWhitespace then
      if acc.isEmpty then wordsAux rest []
      else acc.reverse :: wordsAux rest []
    else wordsAux rest (c :: acc)

/-- `" ".join(words)`. -/
def joinSpace : List (List Char) → List Char
  | [] => []
  | [w] => w
  | w :: ws => w ++ ' ' :: joinSpace ws

/-- `" ".join(s.split())`: collapse runs of whitespace, trim both ends. -/
def collapseWs (s : String) : String :=
  ⟨joinSpace (wordsAux s.data [])⟩

/-- `s.strip().lower()` (ASCII lowering, see the section comment). -/
def pyStripLower (s : String) : String :=
  ⟨(((s.data.dropWhile Char.isWhitespace).reverse.dropWhile
      Char.isWhitespace).reverse).map Char.toLower⟩

/-- `s.lower()` (ASCII lowering). -/
def pyLower (s : String) : String :=
  ⟨s.data.map Char.toLower⟩

/-- Does `hay` start with `needle` (character-wise)? -/
def charsStartWith : List Char → List Char → Bool
  | _, [] => true
  | [], _ :: _ => false
  | a :: hay, b :: needle => a = b && charsStartWith hay needle

/-- Python `needle in hay` for strings. -/
def charsContain (hay needle : List Char) : Bool :=
  match hay with
  | [] => needle.isEmpty
  | _ :: rest => charsStartWith hay needle || charsContain rest needle

/-- Python `pat in s` substring test. -/
def strContainsSub (s pat : String) : Bool :=
  charsContain s.data pat.data

/-- `_normalize_sex`: categorical remapping of sex values. -/
def _normalize_sex (s : String) : Option String :=
  let t := pyStripLower s
  if t = "m" ∨ t = "male" ∨ t = "homme" ∨ t = "masculin" ∨ t = "gabo" then
    some "Gabo"
  else if t = "f" ∨ t = "female" ∨ t = "femme" ∨ t = "feminin" ∨
      t = "féminin" ∨ t = "gore" then
    some "Gore"
  else none

/-- Rational literal `n / d` built with the kernel-computable `mkRat`. -/
def q (n : Int) (d : Nat) : ℚ := mkRat n d

/-- `max` on `ℚ` by the decidable order (kernel-computable). -/
def ratMax (a b : ℚ) : ℚ := if a ≤ b then b else a

/-- `min` on `ℚ` by the decidable order (kernel-computable). -/
def ratMin (a b : ℚ) : ℚ := if a ≤ b then a else b

/-- `re.fullmatch(r"\d+\.0", s)`: one or more digits followed by `.0`. -/
def isDigitsDotZero (s : String) : Bool :=
  match s.data.reverse with
  | '0' :: '.' :: rest => !rest.isEmpty && rest.all Char.isDigit
  | _ => false

/-- Python `s[:-2]`. -/
def pyDropLast2 (s : String) : String :=
  ⟨s.data.take (s.data.length - 2)⟩

/-- One row of `document_template_fields`
(`app/domain/models/document_template_field.py`), the fields the
pipeline reads. -/
structure DocumentTemplateField where
  id : Nat
  name : String
  label : String
  field_type : String
  required : Bool
  description : String
deriving DecidableEq, Repr

/-- `_normalize_field_value(raw, field) -> (value, penalty)`: look-alike
transliteration to Latin (penalty 0.6), whitespace standardization, sex
remapping for fields whose name contains `sex` (penalty 0.2), trailing
`.0` removal for year/number fields (penalty 0.2); penalties combine by
`max`. -/
def _normalize_field_value (raw : String) (field : DocumentTemplateField) :
    String × ℚ :=
  let p0 : String × ℚ :=
    if _contains_non_latin_alpha raw then
      (_to_latin_lookalike raw, ratMax (q 0 1) (q 6 10))
    else (raw, q 0 1)
  let p1 : String × ℚ := (collapseWs p0.1, p0.2)
  let fname := pyLower field.name
  let ftype := pyLower field.field_type
  let p2 : String × ℚ :=
    if strContainsSub fname "sex" then
      match _normalize_sex p1.1 with
      | some norm => if norm ≠ p1.1 then (norm, ratMax p1.2 (q 2 10)) else p1
      | none => p1
    else p1
  if strContainsSub fname "year" ∨ ftype = "number" ∨ ftype = "int" ∨
      ftype = "integer" then
    if isDigitsDotZero p2.1 then (pyDropLast2 p2.1, ratMax p2.2 (q 2 10))
    else p2
  else p2

/-- A provider result value for one field: either a bare value or an
object `{"value": …, "confidence": …}`. -/
inductive ProviderVal where
  | prim (v : String)
  | obj (value : String) (confidence : Option ℚ)
deriving DecidableEq, Repr

/-- `result.get(name, "")` on the provider's result dict. -/
def fieldResultLookup (result : List (String × ProviderVal))
    (name : String) : ProviderVal :=
  match result.find? (fun p => p.1 = name) with
  | some p => p.2
  | none => .prim ""

/-- One row of `extracted_fields`
(`app/domain/models/extracted_field.py`, with the `confidence` column of
migration `0f0b2b0e8c1a`). -/
structure ExtractedField where
  document_id : Nat
  template_field_id : Nat
  extracted_value : String
  value : String
  confidence : ℚ
deriving DecidableEq, Repr

/-- The per-field persistence step of `process_ocr_job` (lines 190–214):
read the provider value and optional confidence, normalize, default the
confidence to 0.5, and lower it by the penalty factor clamped to
`[0, 1]` whenever normalization corrected the raw value. -/
def mkExtractedField (doc_id : Nat) (result : List (String × ProviderVal))
    (f : DocumentTemplateField) : ExtractedField :=
  let raw := fieldResultLookup result f.name
  let v : String := match raw with | .prim v => v | .obj v _ => v
  let conf0 : Option ℚ := match raw with | .prim _ => none | .obj _ c => c
  let np := _normalize_field_value v f
  let conf1 : ℚ := conf0.getD (q 1 2)
  let conf : ℚ :=
    if q 0 1 < np.2 then ratMax (q 0 1) (ratMin (q 1 1) (conf1 * (q 1 1 - np.2)))
    else conf1
  ⟨doc_id, f.id, np.1, np.1, conf⟩

example :
    (_normalize_field_value "Р-emera"
      ⟨1, "name", "Name", "string", false, ""⟩).1 = "P-emera" := by decide

/-- C6 counterexample: in the claimed scenario the stored extracted value
is `"P-emera"`, not `"Remera"` — the look-alike table maps Cyrillic `Р`
(U+0420) to the Latin letter it resembles, `P`, and nothing removes the
hyphen. -/
theorem spec_C6_normalize_counterexample :
    (mkExtractedField 1 [("name", .obj "Р-emera" (some (q 9 10)))]
        ⟨3, "name", "Name", "string", false, ""⟩).extracted_value
      = "P-emera" ∧
    ¬ (mkExtractedField 1 [("name", .obj "Р-emera" (some (q 9 10)))]
        ⟨3, "name", "Name", "string", false, ""⟩).extracted_value
      = "Remera" := by
  refine ⟨by decide, by decide⟩

/-- C6 (amended): the provider value `"Р-emera"` with confidence 0.9 for
a Latin-script field is stored as `"P-emera"` (look-alike
transliteration, penalty 0.6) in both value columns, with persisted
confidence `0.9 · (1 − 0.6) = 0.36`, strictly below 0.9. -/
theorem spec_C6_normalize_transliteration
    : mkExtractedField 1 [("name", .obj "Р-emera" (some (q 9 10)))]
        ⟨3, "name", "Name", "string", false, ""⟩
      = ⟨1, 3, "P-emera", "P-emera", q 9 25⟩ ∧
      q 9 25 < q 9 10 ∧
      (_normalize_field_value "Р-emera"
        ⟨3, "name", "Name", "string", false, ""⟩).2 = q 6 10 := by
  refine ⟨?_, by norm_num [q, Rat.mkRat_eq_div], ?_⟩
  · simp +decide [mkExtractedField, _normalize_field_value, fieldResultLookup,
      q, ratMax, ratMin, Rat.mkRat_eq_div]
    norm_num
  · simp +decide [_normalize_field_value, q, ratMax, ratMin, Rat.mkRat_eq_div]

/-! ## Persistence of extracted fields (`process_ocr_job`, lines 189–214)

For each template field the pipeline constructs a fresh `ExtractedField`
row and `db.add`s it; there is no lookup of an existing row and the table
has no unique constraint on `(document_id, template_field_id)`. -/

/-- The per-run persistence loop: append one new row per template field. -/
def persistExtractedFields (rows : List ExtractedField) (doc_id : Nat)
    (result : List (String × ProviderVal))
    (fields : List DocumentTemplateField) : List ExtractedField :=
  rows ++ fields.map (mkExtractedField doc_id result)

/-- Number of stored rows for a `(document, template field)` pair. -/
def rowsFor (rows : List ExtractedField) (d fid : Nat) : Nat :=
  (rows.filter (fun r => r.document_id = d ∧ r.template_field_id = fid)).length

/-- C8 counterexample: extracting twice for the same document and
template field leaves two rows for that `(document, field)` pair — the
loop inserts, it does not upsert. -/
theorem spec_C8_upsert_counterexample :
    rowsFor
      (persistExtractedFields
        (persistExtractedFields [] 1 [("name", .prim "x")]
          [⟨3, "name", "Name", "string", false, ""⟩])
        1 [("name", .prim "x")]
        [⟨3, "name", "Name", "string", false, ""⟩]) 1 3 = 2 ∧
    ¬ rowsFor
      (persistExtractedFields
        (persistExtractedFields [] 1 [("name", .prim "x")]
          [⟨3, "name", "Name", "string", false, ""⟩])
        1 [("name", .prim "x")]
        [⟨3, "name", "Name", "string", false, ""⟩]) 1 3 = 1 := by
  refine ⟨by decide, by decide⟩

/-- C8 (amended): each run inserts exactly one extracted-field row per
template field — the count of rows for `(doc, fid)` grows by the number
of template fields with id `fid` on every run, so a re-extraction for the
same document and field appends a duplicate row instead of updating the
existing one. -/
theorem spec_C8_one_insert_per_field
    (rows : List ExtractedField) (doc : Nat)
    (result : List (String × ProviderVal))
    (fields : List DocumentTemplateField) (fid : Nat) :
    rowsFor (persistExtractedFields rows doc result fields) doc fid
        = rowsFor rows doc fid
          + (fields.filter (fun f => f.id = fid)).length ∧
    rowsFor (persistExtractedFields
        (persistExtractedFields rows doc result fields) doc result fields)
        doc fid
      = rowsFor rows doc fid
          + 2 * (fields.filter (fun f => f.id = fid)).length := by
  have mapped : ∀ (l : List DocumentTemplateField),
      ((l.map (mkExtractedField doc result)).filter
        (fun r => r.document_id = doc ∧ r.template_field_id = fid)).length
      = (l.filter (fun f => f.id = fid)).length := by
    intro l
    induction l with
    | nil => rfl
    | cons f fs ih =>
      have hp : (fun (r : ExtractedField) =>
          decide (r.document_id = doc ∧ r.template_field_id = fid))
            (mkExtractedField doc result f)
          = decide (f.id = fid) := by
        simp [mkExtractedField]
      simp only [List.map_cons, List.filter_cons, hp]
      by_cases hf : f.id = fid
      · rw [if_pos (decide_eq_true hf), if_pos (decide_eq_true hf),
          List.length_cons, List.length_cons, ih]
      · have hne : ¬(decide (f.id = fid) = true) := by simp [hf]
        rw [if_neg hne, if_neg hne, ih]
  have key : ∀ rs, rowsFor (persistExtractedFields rs doc result fields) doc fid
      = rowsFor rs doc fid + (fields.filter (fun f => f.id = fid)).length := by
    intro rs
    unfold persistExtractedFields rowsFor
    rw [List.filter_append, List.length_append, mapped]
  refine ⟨key rows, ?_⟩
  rw [key _, key rows]
  ring

/-! ## Job state machine and orchestrator
(`app/services/ocr/pipeline.py`, `app/services/ocr/template_job.py`)

Conventions: the wall clock is an abstract tick counter supplied in the
environment; durations are measured in those ticks.  External
collaborators (document row, artifact download, extraction provider,
template generator) are supplied as environment values; a raised Python
exception is an `Except.error` carrying `str(e)`.  Best-effort callbacks,
analytics and temp-file cleanup only touch external systems and are
swallowed by the source on failure, so they do not appear in the state.
`db.commit()` calls that write the job row append a snapshot of the job
to a `committed` log, which models what other transactions can observe
(needed to reason about intermediate states such as the `running` flip
committed before the debit in `process_template_gen_job`). -/

/-- Python `s[:n]`. -/
def pyTake (s : String) (n : Nat) : String :=
  ⟨s.data.take n⟩

/-- `(str(e) or "error")[:2000]`: the truncated failure message. -/
def errMsg (e : String) : String :=
  pyTake (if e = "" then "error" else e) 2000

/-- `s.strip()`. -/
def pyStrip (s : String) : String :=
  ⟨((s.data.dropWhile Char.isWhitespace).reverse.dropWhile
      Char.isWhitespace).reverse⟩

/-- Python `a or b` on strings (empty string is falsy). -/
def pyOrStr (a b : String) : String :=
  if a = "" then b else a

theorem errMsg_ne_empty (e : String) : errMsg e ≠ "" := by
  unfold errMsg pyTake
  by_cases he : e = ""
  · rw [if_pos he]
    decide
  · rw [if_neg he]
    intro hcontra
    apply he
    have hdata : e.data.take 2000 = ([] : List Char) :=
      congrArg String.data hcontra
    have hlen : e.data.length = 0 := by
      have := congrArg List.length hdata
      simp only [List.length_take, List.length_nil] at this
      omega
    cases e with
    | mk l =>
      simp only [List.length_eq_zero] at hlen
      simp [hlen]

theorem errMsg_le_2000 (e : String) : (errMsg e).data.length ≤ 2000 := by
  unfold errMsg pyTake
  simp only [List.length_take]
  omega

/-- `OcrJob.Status` (`app/domain/models/ocr_job.py`). -/
inductive JobStatus where
  | queued | running | succeeded | failed | cancelled
deriving DecidableEq, Repr

/-- One row of `ocr_jobs`, the columns the pipeline touches. -/
structure OcrJob where
  id : Nat
  org : OrgId
  document_id : Nat
  template_id : Option Nat
  status : JobStatus
  provider : String
  error_message : String
  created_at : Nat
  started_at : Option Nat
  completed_at : Option Nat
deriving DecidableEq, Repr

/-- One row of `credit_usage` (`app/domain/models/credit_usage.py`). -/
structure CreditUsage where
  job_id : Nat
  document_id : Nat
  template_id : Option Nat
  credits_used : Nat
  status : String
  error_message : String
  queue_size : Nat
  created_at : Nat
  started_at : Option Nat
  completed_at : Option Nat
  duration_ms : Option Nat
deriving DecidableEq, Repr

/-- Database state touched by `process_ocr_job`. -/
structure PipeWorld where
  job : OcrJob
  extracted : List ExtractedField
  usage : List CreditUsage
deriving DecidableEq, Repr

/-- One run's external collaborators and clock for `process_ocr_job`. -/
structure PipeEnv where
  now : Nat
  docFound : Bool
  fetchResult : Except String Unit
  isPdf : Bool
  pageCount : Nat
  fields : List DocumentTemplateField
  provider_result : Except String (List (String × ProviderVal))
  queue_size : Nat
  duration : Nat
deriving Repr

/-- The top-level `except` handler of `process_ocr_job`: mark the job
`failed` with a truncated message, stamp `completed_at`, and record a
zero-credit `failed` usage row.  (The best-effort failure callback and
analytics only touch external systems.) -/
def failOcrJob (w : PipeWorld) (now : Nat) (e : String) : PipeWorld :=
  let job := { w.job with
    status := JobStatus.failed,
    error_message := errMsg e,
    completed_at := some now }
  let duration_ms : Option Nat :=
    match job.started_at, job.completed_at with
    | some s, some c => some (c - s)
    | _, _ => none
  { w with
    job := job,
    usage := w.usage ++ [⟨job.id, job.document_id, job.template_id, 0,
      "failed", job.error_message, 0, job.created_at, job.started_at,
      job.completed_at, duration_ms⟩] }

/-- `process_ocr_job(job_id)`: terminal guard, `queued → running` flip
with `started_at` kept if already set and `provider := "gemini"`,
document load, artifact fetch, page-count cost, rate-limited provider
call, per-field persistence for templated jobs, success bookkeeping with
a usage record; any exception in between takes the failure path. -/
def process_ocr_job (w : PipeWorld) (env : PipeEnv) : PipeWorld :=
  if w.job.status = JobStatus.succeeded ∨ w.job.status = JobStatus.failed ∨
      w.job.status = JobStatus.cancelled then
    w
  else
    let job1 := { w.job with
      status := if w.job.status = JobStatus.queued then JobStatus.running
        else w.job.status,
      started_at := match w.job.started_at with
        | some t => some t
        | none => some env.now,
      provider := "gemini" }
    let w1 := { w with job := job1 }
    if env.docFound = false then
      failOcrJob w1 env.now "Document not found for job"
    else
      match env.fetchResult with
      | .error e => failOcrJob w1 env.now ("failed to download document: " ++ e)
      | .ok _ =>
        let credits_used := if env.isPdf then max 1 env.pageCount else 1
        match env.provider_result with
        | .error e => failOcrJob w1 env.now e
        | .ok result =>
          let w2 := { w1 with extracted :=
            (persistExtractedFields w1.extracted w.job.document_id result
              env.fields) }
          let job2 := { job1 with
            status := JobStatus.succeeded,
            completed_at := some env.now }
          { w2 with
            job := job2,
            usage := w2.usage ++ [⟨job2.id, job2.document_id,
              job2.template_id, credits_used, "succeeded", "",
              env.queue_size, job2.created_at, job2.started_at,
              job2.completed_at, some env.duration⟩] }

/-- One row of `template_gen_jobs`
(`app/domain/models/template_gen_job.py`; `status` is a plain string
there, compared against literals). -/
structure TGJob where
  id : Nat
  org : OrgId
  created_by_id : Nat
  name : String
  description : String
  status : String
  error_message : String
  template_id : Option Nat
  started_at : Option Nat
  completed_at : Option Nat
deriving DecidableEq, Repr

/-- One row of `document_templates`, the columns the job writes. -/
structure TemplateRow where
  id : Nat
  org : OrgId
  name : String
  description : String
  created_by_id : Nat
deriving DecidableEq, Repr

/-- One row of `document_template_fields` as written by the job. -/
structure TemplateFieldRow where
  template_id : Nat
  name : String
  label : String
  field_type : String
  required : Bool
  description : String
  order_index : Nat
deriving DecidableEq, Repr

/-- Database state touched by `process_template_gen_job`.  `usage` is
the shared `credit_usage` table: the template job never writes to it.
`committed` logs the job snapshots made visible by each `db.commit()`
that includes the job row. -/
structure TGWorld where
  job : TGJob
  credits : CreditsDB
  templates : List TemplateRow
  tfields : List TemplateFieldRow
  usage : List CreditUsage
  committed : List TGJob
deriving DecidableEq, Repr

/-- One entry of the generator's `result["fields"]` (missing keys
modelled as the empty string / `false`, matching `str(… or "")`). -/
structure GenField where
  name : String
  label : String
  field_type : String
  required : Bool
  description : String
deriving DecidableEq, Repr

/-- One run's externals for `process_template_gen_job`:
`cost = settings.template_gen_cost`, the PDF download plus generator
call as one fallible step, and the id `db.flush()` assigns to the new
template row. -/
structure TGEnv where
  now : Nat
  cost : Int
  gen_result : Except String (List GenField)
  new_template_id : Nat
deriving Repr

/-- Is a template name already taken for this organization? -/
def tplNameTaken (templates : List TemplateRow) (org : OrgId)
    (nm : String) : Bool :=
  templates.any (fun t => t.org = org ∧ t.name = nm)

/-- The `while` loop trying `base`, `base (1)`, `base (2)`, … until a
name unused by the organization is found.  At most `templates.length`
candidates can collide, so the first free name appears among the first
`templates.length + 2` candidates and the bounded search below returns
the same name the loop does. -/
def freshTplName (templates : List TemplateRow) (org : OrgId)
    (base : String) : String :=
  let candidates := base :: (List.range (templates.length + 1)).map
    (fun k => base ++ " (" ++ toString (k + 1) ++ ")")
  (candidates.find? (fun nm => !tplNameTaken templates org nm)).getD base

/-- The field-creation loop: truncate/strip each generated field, skip
entries with an empty name, number the kept ones from 1. -/
def mkTemplateFieldRows (tid : Nat) : Nat → List GenField →
    List TemplateFieldRow
  | _, [] => []
  | order, f :: rest =>
    let fname := pyTake (pyStrip f.name) 100
    if fname = "" then mkTemplateFieldRows tid order rest
    else
      ⟨tid, fname, pyTake (pyStrip (pyOrStr f.label fname)) 200,
        pyTake (pyStrip (pyOrStr f.field_type "string")) 50, f.required,
        pyTake (pyStrip f.description) 500, order⟩
        :: mkTemplateFieldRows tid (order + 1) rest

/-- `process_template_gen_job(job_id)`: guard on `status == "queued"`,
commit the `running` flip, debit `template_gen_cost` with key
`"template_gen:{job_id}"` (an `InsufficientCreditsError` commits a
`failed` job and returns; a `ValueError` from a non-positive cost
propagates uncaught, leaving the running job as last committed), then
download + generate; on success create the template and its fields and
commit `succeeded`; on failure commit `failed` with a truncated message
and, if this run charged, refund idempotently with key
`"refund:template_gen:{job_id}"`. -/
def process_template_gen_job (w : TGWorld) (env : TGEnv) : TGWorld :=
  if w.job.status ≠ "queued" then w
  else
    let job1 := { w.job with
      status := "running", started_at := some env.now }
    let w1 := { w with job := job1, committed := w.committed ++ [job1] }
    match debit_if_possible w1.credits w.job.org env.cost "template_gen"
        (some ("template_gen:" ++ toString w.job.id)) with
    | (.error .insufficientCredits, db1) =>
      let job2 := { job1 with
        status := "failed", error_message := "insufficient credits",
        completed_at := some env.now }
      { w1 with
        job := job2,
        credits := db1,
        committed := w1.committed ++ [job2] }
    | (.error .valueError, db1) =>
      -- uncaught ValueError: no further writes happen in this call
      { w1 with credits := db1 }
    | (.ok res, db1) =>
      let debited := !res.already_processed
      let w2 := { w1 with credits := db1 }
      match env.gen_result with
      | .error e =>
        let job2 := { job1 with
          status := "failed", error_message := errMsg e,
          completed_at := some env.now }
        let w3 := { w2 with
          job := job2,
          committed := w2.committed ++ [job2] }
        if debited then
          { w3 with credits := (refund w3.credits w.job.org env.cost
              "refund_template_gen"
              (some ("refund:template_gen:" ++ toString w.job.id))).2 }
        else w3
      | .ok gfields =>
        let base := pyOrStr
          (pyTake (pyStrip (pyOrStr w.job.name "Generated Template")) 200)
          "Generated Template"
        let tname := freshTplName w2.templates w.job.org base
        let tpl : TemplateRow := ⟨env.new_template_id, w.job.org, tname,
          pyTake w.job.description 500, w.job.created_by_id⟩
        let w3 := { w2 with
          templates := w2.templates ++ [tpl],
          tfields := w2.tfields ++
            mkTemplateFieldRows env.new_template_id 1 gfields }
        let job2 := { job1 with
          template_id := some env.new_template_id,
          status := "succeeded", completed_at := some env.now }
        { w3 with job := job2, committed := w3.committed ++ [job2] }

/-! ### Run characterizations -/

/-- The two idempotency keys derived from one job id are distinct. -/
theorem tg_keys_ne (s : String) :
    ("template_gen:" ++ s) ≠ ("refund:template_gen:" ++ s) := by
  intro h
  have hlen := congrArg (fun t => t.data.length) h
  simp [String.data_append] at hlen

/-- A queued OCR job whose document and artifact resolve but whose
provider call raises ends in the failure handler. -/
theorem pipe_fail_run (w : PipeWorld) (env : PipeEnv) (e : String)
    (hq : w.job.status = JobStatus.queued)
    (hdoc : env.docFound = true)
    (hfetch : env.fetchResult = .ok ())
    (hprov : env.provider_result = .error e) :
    process_ocr_job w env
      = failOcrJob { w with job := { w.job with
          status := JobStatus.running,
          started_at := (match w.job.started_at with
            | some t => some t
            | none => some env.now),
          provider := "gemini" } } env.now e := by
  unfold process_ocr_job
  rw [if_neg (by simp [hq])]
  simp [hq, hdoc, hfetch, hprov]

/-- A queued template-generation job with insufficient balance commits
`running` and then `failed` with message `insufficient credits`, leaving
credits, templates, fields and usage untouched. -/
theorem tg_insufficient_run (w : TGWorld) (env : TGEnv)
    (hq : w.job.status = "queued") (hok : accsOk w.credits.accounts)
    (hpos : 0 < env.cost)
    (hlt : get_balance w.credits w.job.org < env.cost)
    (hk : hasKey w.credits.ledger w.job.org
      ("template_gen:" ++ toString w.job.id) = false) :
    process_template_gen_job w env
      = { w with
          job := { w.job with
            status := "failed",
            error_message := "insufficient credits",
            started_at := some env.now,
            completed_at := some env.now },
          committed := w.committed
            ++ [{ w.job with status := "running", started_at := some env.now },
                { w.job with
                  status := "failed",
                  error_message := "insufficient credits",
                  started_at := some env.now,
                  completed_at := some env.now }] } := by
  have hd := debit_insufficient w.credits w.job.org env.cost "template_gen"
    (some ("template_gen:" ++ toString w.job.id)) hok hpos hlt
    (by intro k hk'; cases hk'; exact hk)
  unfold process_template_gen_job
  rw [if_neg (by simp [hq])]
  simp [hd]

/-- A queued template-generation job with sufficient balance and fresh
keys whose generator call raises: it commits `running` then `failed`
with a truncated message, charges and then refunds in full, and never
touches templates, fields or usage. -/
theorem tg_genfail_run (w : TGWorld) (env : TGEnv) (e : String)
    (hq : w.job.status = "queued") (hpos : 0 < env.cost)
    (hge : env.cost ≤ get_balance w.credits w.job.org)
    (hk1 : hasKey w.credits.ledger w.job.org
      ("template_gen:" ++ toString w.job.id) = false)
    (hgen : env.gen_result = .error e) :
    process_template_gen_job w env
      = { w with
          job := { w.job with
            status := "failed",
            error_message := errMsg e,
            started_at := some env.now,
            completed_at := some env.now },
          credits := (refund
            (debit_if_possible w.credits w.job.org env.cost "template_gen"
              (some ("template_gen:" ++ toString w.job.id))).2
            w.job.org env.cost "refund_template_gen"
            (some ("refund:template_gen:" ++ toString w.job.id))).2,
          committed := w.committed
            ++ [{ w.job with status := "running", started_at := some env.now },
                { w.job with
                  status := "failed",
                  error_message := errMsg e,
                  started_at := some env.now,
                  completed_at := some env.now }] } := by
  have hd := (debit_fresh_ge w.credits w.job.org env.cost "template_gen"
    ("template_gen:" ++ toString w.job.id) hpos hge hk1).1
  unfold process_template_gen_job
  rw [if_neg (by simp [hq])]
  simp [hd, hgen]

/-- C3 counterexample: a queued template-generation job with balance 5
and cost 1 whose generator raises ends `failed` and is charged and then
refunded (two ledger rows, net balance unchanged) — but no usage record
is ever created on this path, contrary to the claim. -/
theorem spec_C3_provider_failure_counterexample :
    (process_template_gen_job
        ⟨⟨1, 1, 1, "", "", "queued", "", none, none, none⟩,
         ⟨[(1, 5)], []⟩, [], [], [], []⟩
        ⟨10, 1, .error "boom", 9⟩).job.status = "failed" ∧
    (process_template_gen_job
        ⟨⟨1, 1, 1, "", "", "queued", "", none, none, none⟩,
         ⟨[(1, 5)], []⟩, [], [], [], []⟩
        ⟨10, 1, .error "boom", 9⟩).credits.ledger.length = 2 ∧
    get_balance (process_template_gen_job
        ⟨⟨1, 1, 1, "", "", "queued", "", none, none, none⟩,
         ⟨[(1, 5)], []⟩, [], [], [], []⟩
        ⟨10, 1, .error "boom", 9⟩).credits 1 = 5 ∧
    (process_template_gen_job
        ⟨⟨1, 1, 1, "", "", "queued", "", none, none, none⟩,
         ⟨[(1, 5)], []⟩, [], [], [], []⟩
        ⟨10, 1, .error "boom", 9⟩).usage = [] := by
  refine ⟨by decide, by decide, by decide, by decide⟩

/-- C3 (amended): if the provider call raises, the job ends `failed`
with a non-empty `error_message` of at most 2000 characters.  For an OCR
job a usage record with `credits_used = 0` and status `failed` is
appended (OCR jobs are never charged, so no refund arises); for a
template-generation job the debited amount is refunded in full — the
balance returns to its pre-debit value — but no usage record is
created. -/
theorem spec_C3_provider_failure
    (w : PipeWorld) (env : PipeEnv) (e : String)
    (tw : TGWorld) (tenv : TGEnv) (e' : String)
    (hq : w.job.status = JobStatus.queued)
    (hdoc : env.docFound = true)
    (hfetch : env.fetchResult = .ok ())
    (hprov : env.provider_result = .error e)
    (htq : tw.job.status = "queued")
    (htpos : 0 < tenv.cost)
    (htge : tenv.cost ≤ get_balance tw.credits tw.job.org)
    (htk1 : hasKey tw.credits.ledger tw.job.org
      ("template_gen:" ++ toString tw.job.id) = false)
    (htk2 : hasKey tw.credits.ledger tw.job.org
      ("refund:template_gen:" ++ toString tw.job.id) = false)
    (htgen : tenv.gen_result = .error e') :
    ((process_ocr_job w env).job.status = JobStatus.failed ∧
     (process_ocr_job w env).job.error_message = errMsg e ∧
     errMsg e ≠ "" ∧ (errMsg e).data.length ≤ 2000 ∧
     (process_ocr_job w env).usage.map (fun u => (u.credits_used, u.status))
       = w.usage.map (fun u => (u.credits_used, u.status)) ++ [(0, "failed")] ∧
     (process_ocr_job w env).extracted = w.extracted) ∧
    ((process_template_gen_job tw tenv).job.status = "failed" ∧
     (process_template_gen_job tw tenv).job.error_message = errMsg e' ∧
     errMsg e' ≠ "" ∧ (errMsg e').data.length ≤ 2000 ∧
     (process_template_gen_job tw tenv).usage = tw.usage ∧
     get_balance (process_template_gen_job tw tenv).credits tw.job.org
       = get_balance tw.credits tw.job.org) := by
  constructor
  · rw [pipe_fail_run w env e hq hdoc hfetch hprov]
    unfold failOcrJob
    refine ⟨rfl, rfl, errMsg_ne_empty e, errMsg_le_2000 e, ?_, rfl⟩
    simp
  · have hrun := tg_genfail_run tw tenv e' htq htpos htge htk1 htgen
    have hd := debit_fresh_ge tw.credits tw.job.org tenv.cost "template_gen"
      ("template_gen:" ++ toString tw.job.id) htpos htge htk1
    have hk2' : hasKey (debit_if_possible tw.credits tw.job.org tenv.cost
        "template_gen" (some ("template_gen:" ++ toString tw.job.id))).2.ledger
        tw.job.org ("refund:template_gen:" ++ toString tw.job.id) = false := by
      rw [hd.1]
      simp [hasKey_append, htk2, tg_keys_ne]
    have hr := refund_fresh (debit_if_possible tw.credits tw.job.org tenv.cost
        "template_gen" (some ("template_gen:" ++ toString tw.job.id))).2
      tw.job.org tenv.cost "refund_template_gen"
      ("refund:template_gen:" ++ toString tw.job.id) htpos hk2'
    rw [hrun]
    refine ⟨rfl, rfl, errMsg_ne_empty e', errMsg_le_2000 e', rfl, ?_⟩
    show get_balance (refund _ _ _ _ _).2 tw.job.org = _
    rw [hr.2, hd.2]
    omega

/-- C4: `run_job` on a job already in a terminal state (succeeded,
failed or cancelled) returns immediately with no side effects: the
whole database state — job row, extracted fields, usage records,
credits, templates, committed log — is exactly as before, for both the
OCR pipeline and the template-generation job. -/
theorem spec_C4_run_job_terminal_noop (w : PipeWorld) (env : PipeEnv)
    (tw : TGWorld) (tenv : TGEnv)
    (h : w.job.status = JobStatus.succeeded ∨
      w.job.status = JobStatus.failed ∨ w.job.status = JobStatus.cancelled)
    (ht : tw.job.status = "succeeded" ∨ tw.job.status = "failed" ∨
      tw.job.status = "cancelled") :
    process_ocr_job w env = w ∧ process_template_gen_job tw tenv = tw := by
  constructor
  · unfold process_ocr_job
    rw [if_pos h]
  · unfold process_template_gen_job
    have hne : tw.job.status ≠ "queued" := by
      rcases ht with h' | h' | h' <;> rw [h'] <;> decide
    rw [if_pos hne]

/-- C4 witness: re-invoking either orchestrator on a `succeeded` job is
a no-op on a concrete state. -/
theorem spec_C4_run_job_terminal_noop_witness :
    process_ocr_job
        ⟨⟨1, 1, 1, none, JobStatus.succeeded, "gemini", "", 0, some 1, some 2⟩,
         [], []⟩
        ⟨5, true, .ok (), false, 1, [], .ok [], 0, 0⟩
      = ⟨⟨1, 1, 1, none, JobStatus.succeeded, "gemini", "", 0, some 1, some 2⟩,
         [], []⟩ ∧
    process_template_gen_job
        ⟨⟨1, 1, 1, "", "", "succeeded", "", some 9, some 1, some 2⟩,
         ⟨[(1, 5)], []⟩, [], [], [], []⟩
        ⟨5, 1, .ok [], 9⟩
      = ⟨⟨1, 1, 1, "", "", "succeeded", "", some 9, some 1, some 2⟩,
         ⟨[(1, 5)], []⟩, [], [], [], []⟩ :=
  spec_C4_run_job_terminal_noop _ _ _ _ (Or.inl rfl) (Or.inl rfl)

/-- C5 counterexample: with balance 0 and cost 1, the queued
template-generation job is committed as `running` *before* the debit;
when the debit then raises `InsufficientCredits`, the job moves on to
`failed` — so the claim that the job is never marked running is false. -/
theorem spec_C5_preflight_counterexample :
    ((process_template_gen_job
        ⟨⟨1, 1, 1, "", "", "queued", "", none, none, none⟩,
         ⟨[], []⟩, [], [], [], []⟩
        ⟨10, 1, .error "never reached", 9⟩).committed.map (fun j => j.status))
      = ["running", "failed"] ∧
    "running" ∈ ((process_template_gen_job
        ⟨⟨1, 1, 1, "", "", "queued", "", none, none, none⟩,
         ⟨[], []⟩, [], [], [], []⟩
        ⟨10, 1, .error "never reached", 9⟩).committed.map (fun j => j.status)) ∧
    (process_template_gen_job
        ⟨⟨1, 1, 1, "", "", "queued", "", none, none, none⟩,
         ⟨[], []⟩, [], [], [], []⟩
        ⟨10, 1, .error "never reached", 9⟩).job.error_message
      = "insufficient credits" := by
  refine ⟨by decide, by decide, by decide⟩

/-- C5 (amended): the debit is issued before the expensive work begins —
when it fails with `InsufficientCredits` the run performs none of the
expensive work (the outcome is independent of the generator result, and
templates, fields, usage and the balance are untouched) and the job ends
`failed` with message `insufficient credits`; but the job *is* first
committed as `running` (the `queued → running` flip and its commit
precede the debit), so `running` appears in the committed history before
`failed`. -/
theorem spec_C5_insufficient_preflight (tw : TGWorld) (tenv : TGEnv)
    (hq : tw.job.status = "queued") (hok : accsOk tw.credits.accounts)
    (hpos : 0 < tenv.cost)
    (hlt : get_balance tw.credits tw.job.org < tenv.cost)
    (hk : hasKey tw.credits.ledger tw.job.org
      ("template_gen:" ++ toString tw.job.id) = false) :
    (process_template_gen_job tw tenv).job.status = "failed" ∧
    (process_template_gen_job tw tenv).job.error_message
      = "insufficient credits" ∧
    (process_template_gen_job tw tenv).templates = tw.templates ∧
    (process_template_gen_job tw tenv).tfields = tw.tfields ∧
    (process_template_gen_job tw tenv).usage = tw.usage ∧
    get_balance (process_template_gen_job tw tenv).credits tw.job.org
      = get_balance tw.credits tw.job.org ∧
    ((process_template_gen_job tw tenv).committed.map (fun j => j.status))
      = tw.committed.map (fun j => j.status) ++ ["running", "failed"] ∧
    (∀ g, process_template_gen_job tw { tenv with gen_result := g }
        = process_template_gen_job tw tenv) := by
  have hrun := tg_insufficient_run tw tenv hq hok hpos hlt hk
  refine ⟨by rw [hrun], by rw [hrun], by rw [hrun], by rw [hrun],
    by rw [hrun], by rw [hrun], ?_, ?_⟩
  · rw [hrun]
    simp
  · intro g
    rw [tg_insufficient_run tw { tenv with gen_result := g } hq hok hpos hlt hk,
      hrun]

/-- C5 witness: the amended statement at a concrete state with balance 3
and cost 5. -/
theorem spec_C5_insufficient_preflight_witness :
    (process_template_gen_job
        ⟨⟨2, 1, 1, "", "", "queued", "", none, none, none⟩,
         ⟨[(1, 3)], []⟩, [], [], [], []⟩
        ⟨10, 5, .error "x", 9⟩).job.status = "failed" :=
  (spec_C5_insufficient_preflight
    ⟨⟨2, 1, 1, "", "", "queued", "", none, none, none⟩,
     ⟨[(1, 3)], []⟩, [], [], [], []⟩
    ⟨10, 5, .error "x", 9⟩
    (by decide) (by decide) (by decide) (by decide) (by decide)).1

/-- C3 witness: the amended statement at concrete states — a queued OCR
job whose provider raises `"boom"`, and a queued template-generation job
with balance 5 and cost 1 whose generator raises. -/
theorem spec_C3_provider_failure_witness :
    (process_ocr_job
        ⟨⟨1, 1, 1, none, JobStatus.queued, "", "", 0, none, none⟩, [], []⟩
        ⟨5, true, .ok (), false, 1, [], .error "boom", 0, 0⟩).job.status
      = JobStatus.failed :=
  (spec_C3_provider_failure
    ⟨⟨1, 1, 1, none, JobStatus.queued, "", "", 0, none, none⟩, [], []⟩
    ⟨5, true, .ok (), false, 1, [], .error "boom", 0, 0⟩ "boom"
    ⟨⟨1, 1, 1, "", "", "queued", "", none, none, none⟩,
     ⟨[(1, 5)], []⟩, [], [], [], []⟩
    ⟨10, 1, .error "crash", 9⟩ "crash"
    rfl rfl rfl rfl rfl (by decide) (by decide) (by decide) (by decide)
    rfl).1.1

/-! ## Rate limiter (`app/services/rate_limit.py`)

`RateLimiter` is modelled as a labelled transition system over an
abstract monotonic clock (`now`, in seconds).  `holders` counts callers
between a returned `acquire()` and its `release()` (`max_concurrency`
minus the semaphore value); `tokens` is the `_tokens` deque of grant
timestamps, evicted from the left when 60 seconds old.  A `grant` label
is an `acquire()` call returning: the semaphore guard demands a free
slot and the RPM guard demands fewer than `rpm` live tokens after
eviction — a caller for whom no guard holds stays blocked, which is how
the polling loop behaves.  `release()` is modelled for gate holders, as
the source uses it (paired in `finally`).  `admits` is a ghost history
of every admission timestamp, never evicted, used to state the
trailing-window bound. -/

structure RLState where
  rpm : Nat
  maxConc : Nat
  holders : Nat
  tokens : List Nat
  admits : List Nat
  now : Nat
deriving DecidableEq, Repr

/-- `RateLimiter(rpm, max_concurrency)`: both bounds are clamped to at
least 1, the semaphore starts full, the token deque empty. -/
def RateLimiter_init (rpm maxConc : Nat) : RLState :=
  ⟨Nat.max 1 rpm, Nat.max 1 maxConc, 0, [], [], 0⟩

/-- Eviction: `while tokens and now - tokens[0] >= 60: popleft()`. -/
def evictOld (now : Nat) (tokens : List Nat) : List Nat :=
  tokens.dropWhile (fun t => 60 ≤ now - t)

inductive RLLabel where
  | tick (dt : Nat)
  | grant
  | release
deriving DecidableEq, Repr

/-- One observable step of the limiter (or of time). -/
inductive RLStep : RLState → RLLabel → RLState → Prop where
  | tick (s : RLState) (dt : Nat) :
      RLStep s (.tick dt) { s with now := s.now + dt }
  | grant (s : RLState)
      (hconc : s.holders < s.maxConc)
      (hrpm : (evictOld s.now s.tokens).length < s.rpm) :
      RLStep s .grant
        { s with
          holders := s.holders + 1,
          tokens := evictOld s.now s.tokens ++ [s.now],
          admits := s.admits ++ [s.now] }
  | release (s : RLState) (hpos : 0 < s.holders) :
      RLStep s .release { s with holders := s.holders - 1 }

/-- Executions: reflexive-transitive closure of `RLStep`. -/
inductive RLReachable : RLState → RLState → Prop where
  | refl (s : RLState) : RLReachable s s
  | step {s t u : RLState} {l : RLLabel} :
      RLReachable s t → RLStep t l u → RLReachable s u

/-- The limiter invariant: the gate is within its concurrency bound, the
token deque never exceeds `rpm`, and every admission still inside the
trailing 60-second window is still present in the token deque. -/
def RLInv (s : RLState) : Prop :=
  s.holders ≤ s.maxConc ∧
  s.tokens.length ≤ s.rpm ∧
  List.Sublist (s.admits.filter (fun t => s.now - t < 60)) s.tokens

/-- A sublist of `p ++ s` whose elements all satisfy `P` while those of
`p` all fail it is a sublist of `s`. -/
theorem sublist_of_append_disjoint {P : Nat → Prop} :
    ∀ {l p s : List Nat}, List.Sublist l (p ++ s) →
      (∀ x ∈ l, P x) → (∀ x ∈ p, ¬ P x) → List.Sublist l s := by
  intro l p
  induction p generalizing l with
  | nil => intro s h _ _; exact h
  | cons a p ih =>
    intro s h hl hp
    rw [List.cons_append] at h
    cases h with
    | cons _ h' => exact ih h' hl (fun x hx => hp x (List.mem_cons_of_mem a hx))
    | cons₂ _ h' =>
      exact absurd (hl a (List.mem_cons_self a _)) (hp a (List.mem_cons_self a p))

theorem rlinv_init (rpm maxConc : Nat) : RLInv (RateLimiter_init rpm maxConc) := by
  refine ⟨Nat.zero_le _, Nat.zero_le _, ?_⟩
  exact List.Sublist.refl []

theorem rlinv_step {s t : RLState} {l : RLLabel}
    (h : RLStep s l t) (hinv : RLInv s) : RLInv t := by
  obtain ⟨h1, h2, h3⟩ := hinv
  cases h with
  | tick dt =>
    refine ⟨h1, h2, ?_⟩
    refine List.Sublist.trans ?_ h3
    apply List.monotone_filter_right
    intro a ha
    simp only [decide_eq_true_eq] at ha ⊢
    omega
  | release hpos => exact ⟨Nat.le_trans (Nat.sub_le _ _) h1, h2, h3⟩
  | grant hconc hrpm =>
    refine ⟨hconc, ?_, ?_⟩
    · simp only [List.length_append, List.length_cons, List.length_nil]
      omega
    · have hsplit : s.tokens
          = s.tokens.takeWhile (fun t => 60 ≤ s.now - t)
            ++ evictOld s.now s.tokens :=
        (List.takeWhile_append_dropWhile (fun t => 60 ≤ s.now - t) s.tokens).symm
      have hlive : List.Sublist (s.admits.filter (fun t => s.now - t < 60))
          (evictOld s.now s.tokens) := by
        refine sublist_of_append_disjoint (P := fun t => s.now - t < 60)
          (hsplit ▸ h3) ?_ ?_
        · intro x hx
          have := List.of_mem_filter hx
          simpa using this
        · intro x hx hlt
          have := List.mem_takeWhile_imp hx
          simp only [decide_eq_true_eq] at this
          omega
      rw [List.filter_append]
      refine List.Sublist.append hlive ?_
      simp [List.filter]

theorem rlinv_reachable {s t : RLState} (hr : RLReachable s t)
    (h : RLInv s) : RLInv t := by
  induction hr with
  | refl => exact h
  | step hr hstep ih => exact rlinv_step hstep ih

/-- C9: along every execution from a fresh limiter, at any instant at
most `max_concurrency` callers hold the gate and at most
`requests_per_minute` admissions fall inside the trailing 60-second
window; moreover a `grant` (an `acquire()` returning) is only possible
while a concurrency slot is free — with `max_concurrency = 2` and two
holders, a third `acquire()` cannot return until a `release()` lowers
the holder count. -/
theorem spec_C9_rate_limiter (rpm maxConc : Nat) (s : RLState)
    (hreach : RLReachable (RateLimiter_init rpm maxConc) s) :
    (s.holders ≤ s.maxConc ∧
     (s.admits.filter (fun t => s.now - t < 60)).length ≤ s.rpm) ∧
    (∀ t u : RLState, RLStep t .grant u → t.holders < t.maxConc) := by
  have hinv := rlinv_reachable hreach (rlinv_init rpm maxConc)
  obtain ⟨h1, h2, h3⟩ := hinv
  refine ⟨⟨h1, Nat.le_trans (List.Sublist.length_le h3) h2⟩, ?_⟩
  intro t u hstep
  cases hstep with
  | grant hconc hrpm => exact hconc

/-- C9 witness: after two admissions from a fresh `RateLimiter(4, 2)`
(two holders, both grant timestamps live), the bounds hold at the
reached state. -/
theorem spec_C9_rate_limiter_witness :
    (((⟨4, 2, 2, [0, 0], [0, 0], 0⟩ : RLState).holders
        ≤ (⟨4, 2, 2, [0, 0], [0, 0], 0⟩ : RLState).maxConc ∧
      ((⟨4, 2, 2, [0, 0], [0, 0], 0⟩ : RLState).admits.filter
          (fun t => (⟨4, 2, 2, [0, 0], [0, 0], 0⟩ : RLState).now - t < 60)).length
        ≤ (⟨4, 2, 2, [0, 0], [0, 0], 0⟩ : RLState).rpm) ∧
     (∀ t u : RLState, RLStep t .grant u → t.holders < t.maxConc)) :=
  spec_C9_rate_limiter 4 2 ⟨4, 2, 2, [0, 0], [0, 0], 0⟩
    (RLReachable.step
      (RLReachable.step (RLReachable.refl _)
        (RLStep.grant (RateLimiter_init 4 2) (by decide) (by decide)))
      (RLStep.grant ⟨4, 2, 1, [0], [0], 0⟩ (by decide) (by decide)))
